import Mathlib

/-!
Verification of the pr-reviewer-service assignment engine.

The Go sources are embedded shallowly:
* `model/models.go`   → the entity structures and the error sentinels,
* the SQL schema and `store/repo_*.go` → a `Store` state (one list per
  table) and one Lean function per repository method (`dbGetUser`, …),
* `store` interface   → the `Repository` record of method functions,
* `service/service.go` → the `Service.*` functions, written over an
  arbitrary `Repository` exactly as the Go engine is written over the
  `store.Repository` interface.

Wall-clock reads (`time.Now`, SQL `now()`) are passed in as explicit `Nat`
arguments, and the engine's random draws (`rand.Shuffle`, `rand.Intn`) are
passed in as a shuffle function and a `Nat` seed respectively.
-/

/-- Embeds `model.User`. -/
structure User where
  userID : String
  username : String
  teamName : String
  isActive : Bool
  deriving Repr, DecidableEq

/-- Embeds `model.TeamMember`. -/
structure TeamMember where
  userID : String
  username : String
  isActive : Bool
  deriving Repr, DecidableEq

/-- Embeds `model.Team`. -/
structure Team where
  teamName : String
  members : List TeamMember
  deriving Repr, DecidableEq

/-- Embeds `model.PullRequest` (the engine-level value, reviewer set included). -/
structure PullRequest where
  pullRequestID : String
  pullRequestName : String
  authorID : String
  status : String
  assigned : List String
  createdAt : Nat
  mergedAt : Option Nat
  deriving Repr, DecidableEq

/-- Embeds `model.PullRequestShort`. -/
structure PullRequestShort where
  pullRequestID : String
  pullRequestName : String
  authorID : String
  status : String
  deriving Repr, DecidableEq

/-- Go zero value `model.User{}`. -/
instance : Inhabited User := ⟨⟨"", "", "", false⟩⟩

/-- Go zero value `model.Team{}`. -/
instance : Inhabited Team := ⟨⟨"", []⟩⟩

/-- Go zero value `model.PullRequest{}`. -/
instance : Inhabited PullRequest := ⟨⟨"", "", "", "", [], 0, none⟩⟩

/-- The engine error codes of `apiErrors` (`errors.go`). -/
inductive ErrCode where
  | teamExists
  | prExists
  | prAlreadyMerged
  | notAssigned
  | noCandidate
  | notFound
  | internalError
  deriving Repr, DecidableEq

/-- Go error values observable in the engine: the `model` sentinels,
`apiErrors.APIError` values, and any other (storage-layer) error. -/
inductive GoErr where
  | errNotFound
  | errTeamExists
  | api (code : ErrCode) (msg : String)
  | other (msg : String)
  deriving Repr, DecidableEq

/-- A row of the `pull_requests` table: the durable PR record carries no
reviewer set (reviewers live in `pr_reviewers`). -/
structure PRRow where
  pullRequestID : String
  pullRequestName : String
  authorID : String
  status : String
  createdAt : Nat
  mergedAt : Option Nat
  deriving Repr, DecidableEq

/-- The durable storage state: one field per table of
`migrations/0001_create_schema.up.sql`. -/
structure Store where
  teams : List String
  users : List User
  pullRequests : List PRRow
  prReviewers : List (String × String)
  deriving Repr, DecidableEq

/-- Models `ORDER BY user_id`: character-list comparison used to sort reviewer ids. -/
def charsLt : List Char → List Char → Bool
  | [], [] => false
  | [], _ :: _ => true
  | _ :: _, [] => false
  | a :: as, b :: bs =>
    if a.toNat < b.toNat then true
    else if b.toNat < a.toNat then false
    else charsLt as bs

def strLt (a b : String) : Bool := charsLt a.data b.data

def insertStr (x : String) : List String → List String
  | [] => [x]
  | y :: rest => if strLt y x then y :: insertStr x rest else x :: y :: rest

def sortStrings : List String → List String
  | [] => []
  | x :: rest => insertStr x (sortStrings rest)

/-- Models `ORDER BY created_at DESC` on joined PR rows. -/
def insertRowDesc (x : PRRow) : List PRRow → List PRRow
  | [] => [x]
  | y :: rest => if y.createdAt ≤ x.createdAt then x :: y :: rest else y :: insertRowDesc x rest

def sortRowsDesc : List PRRow → List PRRow
  | [] => []
  | x :: rest => insertRowDesc x (sortRowsDesc rest)

/-- Embeds `repo_users.go GetUser`: `SELECT … FROM users WHERE user_id=$1`;
`sql.ErrNoRows` is mapped to `model.ErrNotFound`. -/
def dbGetUser (σ : Store) (userID : String) : User × Option GoErr :=
  match σ.users.find? (fun u => u.userID == userID) with
  | some u => (u, none)
  | none => (default, some .errNotFound)

/-- Embeds `repo_teams.go GetTeam`: the team is derived by listing the users with
that `team_name`; an empty member list is reported as `model.ErrNotFound`. -/
def dbGetTeam (σ : Store) (teamName : String) : Team × Option GoErr :=
  let members := (σ.users.filter (fun u => u.teamName == teamName)).map
    (fun u => TeamMember.mk u.userID u.username u.isActive)
  if members.isEmpty then (default, some .errNotFound)
  else (⟨teamName, members⟩, none)

/-- Embeds `repo_users.go SetUserIsActive`: `UPDATE users SET is_active…`; zero
rows affected is `model.ErrNotFound`, otherwise the updated row is
re-selected and returned. -/
def dbSetUserIsActive (σ : Store) (userID : String) (isActive : Bool) :
    (User × Option GoErr) × Store :=
  let users' := σ.users.map (fun u => if u.userID == userID then { u with isActive := isActive } else u)
  match users'.find? (fun u => u.userID == userID) with
  | some u => ((u, none), { σ with users := users' })
  | none => ((default, some .errNotFound), σ)

/-- Embeds `repo_users.go GetActiveTeamMembersExcept`:
`SELECT user_id FROM users WHERE team_name=$1 AND is_active AND user_id<>$2`. -/
def dbGetActiveTeamMembersExcept (σ : Store) (teamName exceptUserID : String) :
    List String × Option GoErr :=
  ((σ.users.filter (fun u => u.teamName == teamName && u.isActive && u.userID != exceptUserID)).map
    (fun u => u.userID), none)

/-- Embeds `repo_teams.go CreateTeam`: inside one transaction, check the team name,
check each member id against `users`, then insert the team row and all user
rows; a duplicate id inside `members` violates the `users` primary key and
rolls the whole transaction back. -/
def dbCreateTeam (σ : Store) (t : Team) : (Team × Option GoErr) × Store :=
  if σ.teams.contains t.teamName then ((default, some .errTeamExists), σ)
  else
    match t.members.find? (fun m => σ.users.any (fun u => u.userID == m.userID)) with
    | some m => ((default, some (.other ("user_id " ++ m.userID ++ " already exists"))), σ)
    | none =>
      if (t.members.map (fun m => m.userID)).Nodup then
        ((t, none),
          { σ with
            teams := σ.teams ++ [t.teamName],
            users := σ.users ++ t.members.map (fun m => User.mk m.userID m.username t.teamName m.isActive) })
      else ((default, some (.other "duplicate key value violates unique constraint")), σ)

/-- Embeds `repo_pull_requests.go CreatePRWithReviewers`: one transaction inserting
the PR row (`status='OPEN'`, `created_at=now()`, `merged_at` NULL) and one
`pr_reviewers` row per assigned reviewer; primary-key or foreign-key
violations roll the transaction back. -/
def dbCreatePRWithReviewers (σ : Store) (dbNow : Nat) (pr : PullRequest) :
    Option GoErr × Store :=
  if σ.pullRequests.any (fun row => row.pullRequestID == pr.pullRequestID) then
    (some (.other "duplicate key value violates unique constraint"), σ)
  else if !σ.users.any (fun u => u.userID == pr.authorID) then
    (some (.other "violates foreign key constraint"), σ)
  else if pr.assigned.any (fun rv => !σ.users.any (fun u => u.userID == rv)) then
    (some (.other "violates foreign key constraint"), σ)
  else if !pr.assigned.Nodup then
    (some (.other "duplicate key value violates unique constraint"), σ)
  else
    (none,
      { σ with
        pullRequests := σ.pullRequests ++
          [⟨pr.pullRequestID, pr.pullRequestName, pr.authorID, "OPEN", dbNow, none⟩],
        prReviewers := σ.prReviewers ++ pr.assigned.map (fun rv => (pr.pullRequestID, rv)) })

/-- The first `pull_requests` row with the given id (`QueryRow` semantics). -/
def findPR (σ : Store) (prID : String) : Option PRRow :=
  σ.pullRequests.find? (fun row => row.pullRequestID == prID)

/-- The durable reviewer set of a PR: the `user_id`s of its `pr_reviewers`
rows, in table order. -/
def reviewersOf (σ : Store) (prID : String) : List String :=
  (σ.prReviewers.filter (fun rv => rv.1 == prID)).map (fun rv => rv.2)

/-- Embeds `repo_pull_requests.go GetPR`: select the row, then its reviewers
`ORDER BY user_id`; `sql.ErrNoRows` is `model.ErrNotFound`. -/
def dbGetPR (σ : Store) (prID : String) : PullRequest × Option GoErr :=
  match findPR σ prID with
  | none => (default, some .errNotFound)
  | some row =>
    (⟨row.pullRequestID, row.pullRequestName, row.authorID, row.status,
      sortStrings (reviewersOf σ prID), row.createdAt, row.mergedAt⟩, none)

/-- Embeds `repo_pull_requests.go UpdatePR`:
`UPDATE pull_requests SET pull_request_name=$1, status=$2, merged_at=$3
WHERE pull_request_id=$4` — the reviewer rows are not touched, and no
rows-affected check is made. -/
def dbUpdatePR (σ : Store) (pr : PullRequest) : Option GoErr × Store :=
  (none,
    { σ with
      pullRequests := σ.pullRequests.map (fun row =>
        if row.pullRequestID == pr.pullRequestID then
          { row with
            pullRequestName := pr.pullRequestName,
            status := pr.status,
            mergedAt := pr.mergedAt }
        else row) })

/-- Embeds `repo_pull_requests.go GetAssignedPRsForUser`: join of `pull_requests`
with `pr_reviewers` on the user, `ORDER BY created_at DESC`, projected to
the short form. An id with no rows yields the empty list, not an error. -/
def dbGetAssignedPRsForUser (σ : Store) (userID : String) :
    List PullRequestShort × Option GoErr :=
  ((sortRowsDesc (σ.pullRequests.filter (fun row =>
      σ.prReviewers.any (fun rv => rv.1 == row.pullRequestID && rv.2 == userID)))).map
    (fun row => ⟨row.pullRequestID, row.pullRequestName, row.authorID, row.status⟩), none)

/-- Embeds `repo_stats.go GetReviewStats`: the SQL groups `pr_reviewers` by
`user_id` (one row per distinct user), and `queryCountMap` then executes
`result[key]++` once per returned row while discarding the scanned
`COUNT(*)` column — so every map value is 1. -/
def dbGetReviewStats (σ : Store) : List (String × Nat) × Option GoErr :=
  (((σ.prReviewers.map (fun rv => rv.2)).dedup).map (fun u => (u, 1)), none)

/-- Embeds `repo_stats.go GetPRReviewStats`: same `queryCountMap` helper over the
rows grouped by `pull_request_id` — every map value is 1. -/
def dbGetPRReviewStats (σ : Store) : List (String × Nat) × Option GoErr :=
  (((σ.prReviewers.map (fun rv => rv.1)).dedup).map (fun p => (p, 1)), none)

/-- The `store.Repository` interface consumed by the engine. -/
structure Repository where
  createTeam : Store → Team → (Team × Option GoErr) × Store
  getTeam : Store → String → Team × Option GoErr
  setUserIsActive : Store → String → Bool → (User × Option GoErr) × Store
  getUser : Store → String → User × Option GoErr
  getActiveTeamMembersExcept : Store → String → String → List String × Option GoErr
  createPRWithReviewers : Store → Nat → PullRequest → Option GoErr × Store
  getPR : Store → String → PullRequest × Option GoErr
  updatePR : Store → PullRequest → Option GoErr × Store
  getAssignedPRsForUser : Store → String → List PullRequestShort × Option GoErr
  getReviewStats : Store → List (String × Nat) × Option GoErr
  getPRReviewStats : Store → List (String × Nat) × Option GoErr

/-- The production repository: the SQL-backed `store.Repositories`. -/
def dbRepo : Repository :=
  ⟨dbCreateTeam, dbGetTeam, dbSetUserIsActive, dbGetUser,
   dbGetActiveTeamMembersExcept, dbCreatePRWithReviewers, dbGetPR,
   dbUpdatePR, dbGetAssignedPRsForUser, dbGetReviewStats, dbGetPRReviewStats⟩

/-- Embeds `service.go chooseUpToN`: copy, Fisher–Yates shuffle, and truncate to
`n` when more than `n` items are available. The shuffle performed by the
engine's `rand.Rand` is abstracted as the function `shuf`. -/
def chooseUpToN (shuf : List String → List String) (items : List String) (n : Nat) :
    List String :=
  if items.length ≤ n then shuf items else (shuf items).take n

/-- The in-place replacement loop of `service.go ReassignReviewer`: swap the
first occurrence of `oldU` for `newU`. -/
def replaceFirst : List String → String → String → List String
  | [], _, _ => []
  | x :: rest, oldU, newU =>
    if x == oldU then newU :: rest else x :: replaceFirst rest oldU newU

/-- The member loop of `Service.CreateTeam`: a successful `GetUser` is a
collision (`TeamExists`), `model.ErrNotFound` continues, and any other
error is returned as-is. -/
def Service.checkMemberIDs (repo : Repository) (σ : Store) :
    List TeamMember → Option GoErr
  | [] => none
  | m :: rest =>
    match (repo.getUser σ m.userID).2 with
    | none => some (.api .teamExists ("user_id " ++ m.userID ++ " already exists"))
    | some .errNotFound => Service.checkMemberIDs repo σ rest
    | some e => some e

/-- Embeds `service.go Service.CreateTeam`: the team-existence probe discards its
error and only inspects the returned value's name; each member id is then
probed with `GetUser`. -/
def Service.CreateTeam (repo : Repository) (σ : Store) (t : Team) :
    (Team × Option GoErr) × Store :=
  if (repo.getTeam σ t.teamName).1.teamName != "" then
    ((default, some (.api .teamExists "team_name already exists")), σ)
  else
    match Service.checkMemberIDs repo σ t.members with
    | some e => ((default, some e), σ)
    | none =>
      match repo.createTeam σ t with
      | ((_, some e), σ') => ((default, some e), σ')
      | ((_, none), σ') => ((t, none), σ')

/-- Embeds `service.go Service.GetTeam`: pass-through mapping `model.ErrNotFound`
to the engine `NotFound`. -/
def Service.GetTeam (repo : Repository) (σ : Store) (teamName : String) :
    Team × Option GoErr :=
  match repo.getTeam σ teamName with
  | (t, none) => (t, none)
  | (_, some .errNotFound) => (default, some (.api .notFound "team not found"))
  | (_, some e) => (default, some e)

/-- Embeds `service.go Service.SetUserIsActive`: pass-through with error mapping. -/
def Service.SetUserIsActive (repo : Repository) (σ : Store) (userID : String)
    (isActive : Bool) : (User × Option GoErr) × Store :=
  match repo.setUserIsActive σ userID isActive with
  | ((u, none), σ') => ((u, none), σ')
  | ((_, some .errNotFound), σ') => ((default, some (.api .notFound "user not found")), σ')
  | ((_, some e), σ') => ((default, some e), σ')

/-- Embeds `service.go Service.CreatePR`: note that ANY author-lookup error is
reported as `NotFound`. `now` stands for `time.Now().UTC()` and `shuf` for
the engine's random shuffle. -/
def Service.CreatePR (repo : Repository) (σ : Store) (now : Nat)
    (shuf : List String → List String) (prID prName authorID : String) :
    (PullRequest × Option GoErr) × Store :=
  match repo.getUser σ authorID with
  | (_, some _) => ((default, some (.api .notFound "author not found")), σ)
  | (author, none) =>
    match (repo.getPR σ prID).2 with
    | none => ((default, some (.api .prExists "PR id already exists")), σ)
    | some .errNotFound =>
      match repo.getActiveTeamMembersExcept σ author.teamName authorID with
      | (_, some e) => ((default, some e), σ)
      | (candidates, none) =>
        let pr : PullRequest :=
          { pullRequestID := prID, pullRequestName := prName, authorID := authorID,
            status := "OPEN", assigned := chooseUpToN shuf candidates 2,
            createdAt := now, mergedAt := none }
        match repo.createPRWithReviewers σ now pr with
        | (some e, σ') => ((default, some e), σ')
        | (none, σ') => ((pr, none), σ')
    | some e => ((default, some e), σ)

/-- Embeds `service.go Service.MergePR`: an already-merged PR is returned as-is
with no write; otherwise status and `merged_at` are set together and
persisted. -/
def Service.MergePR (repo : Repository) (σ : Store) (now : Nat) (prID : String) :
    (PullRequest × Option GoErr) × Store :=
  match repo.getPR σ prID with
  | (_, some .errNotFound) => ((default, some (.api .notFound "PR not found")), σ)
  | (_, some e) => ((default, some e), σ)
  | (pr, none) =>
    if pr.status == "MERGED" then ((pr, none), σ)
    else
      let pr' := { pr with status := "MERGED", mergedAt := some now }
      match repo.updatePR σ pr' with
      | (some e, σ') => ((default, some e), σ')
      | (none, σ') => ((pr', none), σ')

/-- Embeds `service.go Service.ReassignReviewer`: the four guard checks, then the
uniform pick `filtered[rnd.Intn(len(filtered))]` — abstracted as index
`k % filtered.length` — then the in-memory swap persisted via `UpdatePR`. -/
def Service.ReassignReviewer (repo : Repository) (σ : Store) (k : Nat)
    (prID oldUserID : String) : ((PullRequest × String) × Option GoErr) × Store :=
  match repo.getPR σ prID with
  | (_, some .errNotFound) => (((default, ""), some (.api .notFound "PR not found")), σ)
  | (_, some e) => (((default, ""), some e), σ)
  | (pr, none) =>
    if pr.status == "MERGED" then
      (((default, ""), some (.api .prAlreadyMerged "cannot reassign on merged PR")), σ)
    else if !pr.assigned.contains oldUserID then
      (((default, ""), some (.api .notAssigned "reviewer is not assigned to this PR")), σ)
    else
      match repo.getUser σ oldUserID with
      | (_, some e) => (((default, ""), some e), σ)
      | (oldUser, none) =>
        match repo.getActiveTeamMembersExcept σ oldUser.teamName oldUserID with
        | (_, some e) => (((default, ""), some e), σ)
        | (candidates, none) =>
          let filtered := candidates.filter
            (fun c => c != pr.authorID && !pr.assigned.contains c)
          if filtered.isEmpty then
            (((default, ""), some (.api .noCandidate "no active replacement candidate in team")), σ)
          else
            let newReviewer := filtered.getD (k % filtered.length) ""
            let pr' := { pr with assigned := replaceFirst pr.assigned oldUserID newReviewer }
            match repo.updatePR σ pr' with
            | (some e, σ') => (((default, ""), some e), σ')
            | (none, σ') => (((pr', newReviewer), none), σ')

/-- Embeds `service.go Service.GetPRsForReviewer`: pass-through to the store. -/
def Service.GetPRsForReviewer (repo : Repository) (σ : Store) (userID : String) :
    List PullRequestShort × Option GoErr :=
  repo.getAssignedPRsForUser σ userID

/-- The state-mutating engine operations, over the production repository:
one constructor per service call that can write to the store. -/
inductive Step : Store → Store → Prop
  | createTeam (σ : Store) (t : Team) :
      Step σ (Service.CreateTeam dbRepo σ t).2
  | setUserIsActive (σ : Store) (userID : String) (isActive : Bool) :
      Step σ (Service.SetUserIsActive dbRepo σ userID isActive).2
  | createPR (σ : Store) (now : Nat) (shuf : List String → List String)
      (prID prName authorID : String) :
      Step σ (Service.CreatePR dbRepo σ now shuf prID prName authorID).2
  | mergePR (σ : Store) (now : Nat) (prID : String) :
      Step σ (Service.MergePR dbRepo σ now prID).2
  | reassignReviewer (σ : Store) (k : Nat) (prID oldUserID : String) :
      Step σ (Service.ReassignReviewer dbRepo σ k prID oldUserID).2

/-- The empty database, as left by the schema migration. -/
def emptyStore : Store := ⟨[], [], [], []⟩

/-- Store states reachable from the empty database by engine operations. -/
inductive Reachable : Store → Prop
  | init : Reachable emptyStore
  | step {σ σ' : Store} : Reachable σ → Step σ σ' → Reachable σ'

section Helpers

theorem insertStr_perm (x : String) (l : List String) : (insertStr x l).Perm (x :: l) := by
  induction l with
  | nil => simp [insertStr]
  | cons y rest ih =>
    unfold insertStr
    by_cases h : strLt y x = true
    · simp only [h, if_true]
      exact ((ih.cons y).trans (List.Perm.swap x y rest))
    · simp [h]

theorem sortStrings_perm (l : List String) : (sortStrings l).Perm l := by
  induction l with
  | nil => simp [sortStrings]
  | cons x rest ih =>
    unfold sortStrings
    exact (insertStr_perm x (sortStrings rest)).trans (ih.cons x)

theorem mem_sortStrings {x : String} {l : List String} : x ∈ sortStrings l ↔ x ∈ l :=
  (sortStrings_perm l).mem_iff

theorem find?_append_some {α : Type} {p : α → Bool} {l₁ l₂ : List α} {x : α}
    (h : l₁.find? p = some x) : (l₁ ++ l₂).find? p = some x := by
  induction l₁ with
  | nil => simp [List.find?] at h
  | cons a rest ih =>
    rw [List.cons_append]
    by_cases ha : p a
    · rw [List.find?_cons_of_pos _ ha] at h
      rw [List.find?_cons_of_pos _ ha]
      exact h
    · rw [List.find?_cons_of_neg _ ha] at h
      rw [List.find?_cons_of_neg _ ha]
      exact ih h

theorem find?_map_pres {α : Type} {f : α → α} {p : α → Bool}
    (hp : ∀ a, p (f a) = p a) (l : List α) :
    (l.map f).find? p = (l.find? p).map f := by
  induction l with
  | nil => simp
  | cons a rest ih =>
    rw [List.map_cons]
    by_cases ha : p a
    · have hfa : p (f a) = true := by rw [hp a]; exact ha
      rw [List.find?_cons_of_pos _ hfa, List.find?_cons_of_pos _ ha]
      rfl
    · have hfa : ¬ p (f a) = true := by rw [hp a]; exact ha
      rw [List.find?_cons_of_neg _ hfa, List.find?_cons_of_neg _ ha]
      exact ih

end Helpers

section StoreLemmas

/-- A found PR row has the id it was looked up by. -/
theorem findPR_id {σ : Store} {pid : String} {row : PRRow}
    (h : findPR σ pid = some row) : row.pullRequestID = pid := by
  have := List.find?_some h
  simpa using this

theorem findPR_mem {σ : Store} {pid : String} {row : PRRow}
    (h : findPR σ pid = some row) : row ∈ σ.pullRequests :=
  List.mem_of_find?_eq_some h

theorem dbGetPR_of_findPR_none {σ : Store} {pid : String}
    (h : findPR σ pid = none) : dbGetPR σ pid = (default, some .errNotFound) := by
  simp [dbGetPR, h]

theorem dbGetPR_of_findPR_some {σ : Store} {pid : String} {row : PRRow}
    (h : findPR σ pid = some row) :
    dbGetPR σ pid =
      (⟨row.pullRequestID, row.pullRequestName, row.authorID, row.status,
        sortStrings (reviewersOf σ pid), row.createdAt, row.mergedAt⟩, none) := by
  simp [dbGetPR, h]

/-- Lemma: `UpdatePR` leaves every table except `pull_requests` alone; in
particular the reviewer rows are untouched. -/
theorem dbUpdatePR_prReviewers (σ : Store) (pr : PullRequest) :
    ((dbUpdatePR σ pr).2).prReviewers = σ.prReviewers := rfl

theorem reviewersOf_dbUpdatePR (σ : Store) (pr : PullRequest) (pid : String) :
    reviewersOf (dbUpdatePR σ pr).2 pid = reviewersOf σ pid := rfl

/-- Looking up a PR other than the updated one is unaffected by `UpdatePR`. -/
theorem findPR_dbUpdatePR_ne (σ : Store) (pr : PullRequest) (pid : String)
    (h : pr.pullRequestID ≠ pid) :
    findPR (dbUpdatePR σ pr).2 pid = findPR σ pid := by
  unfold findPR dbUpdatePR
  simp only
  rw [find?_map_pres]
  · rcases hfind : List.find? (fun row => row.pullRequestID == pid) σ.pullRequests with _ | row
    · rw [hfind]
      rfl
    · rw [hfind]
      have hid : row.pullRequestID = pid := by simpa using List.find?_some hfind
      have hne : row.pullRequestID ≠ pr.pullRequestID := by
        rw [hid]
        intro hc
        exact h hc.symm
      simp [hne]
  · intro row
    by_cases hc : (row.pullRequestID == pr.pullRequestID) = true <;> simp [hc]

/-- Looking up the updated PR after `UpdatePR` returns the old row with the
new name, status and `merged_at`. -/
theorem findPR_dbUpdatePR_eq (σ : Store) (pr : PullRequest) :
    findPR (dbUpdatePR σ pr).2 pr.pullRequestID =
      (findPR σ pr.pullRequestID).map (fun row =>
        { row with
          pullRequestName := pr.pullRequestName,
          status := pr.status,
          mergedAt := pr.mergedAt }) := by
  unfold findPR dbUpdatePR
  simp only
  rw [find?_map_pres]
  · rcases hfind : List.find? (fun row => row.pullRequestID == pr.pullRequestID) σ.pullRequests with _ | row
    · rw [hfind]
      rfl
    · rw [hfind]
      have hid : row.pullRequestID = pr.pullRequestID := by
        simpa using List.find?_some hfind
      simp [hid]
  · intro row
    by_cases hc : (row.pullRequestID == pr.pullRequestID) = true <;> simp [hc]

/-- A PR row present before `CreatePRWithReviewers` is still found
afterwards, with its reviewer rows intact. -/
theorem dbCreatePRWithReviewers_pres (σ : Store) (dbNow : Nat) (pr : PullRequest)
    (pid : String) (row : PRRow) (hfind : findPR σ pid = some row) :
    findPR (dbCreatePRWithReviewers σ dbNow pr).2 pid = some row ∧
    reviewersOf (dbCreatePRWithReviewers σ dbNow pr).2 pid = reviewersOf σ pid := by
  unfold dbCreatePRWithReviewers
  by_cases h1 : σ.pullRequests.any (fun r => r.pullRequestID == pr.pullRequestID) = true
  · simp [h1, hfind]
  · have hne : ¬ (pr.pullRequestID == pid) = true := by
      intro hc
      apply h1
      rw [List.any_eq_true]
      refine ⟨row, findPR_mem hfind, ?_⟩
      have : pr.pullRequestID = pid := by simpa using hc
      simp [findPR_id hfind, this]
    simp only [h1, if_false, Bool.false_eq_true]
    split
    · exact ⟨hfind, rfl⟩
    · split
      · exact ⟨hfind, rfl⟩
      · split
        · exact ⟨hfind, rfl⟩
        · constructor
          · unfold findPR
            simp only
            exact find?_append_some hfind
          · unfold reviewersOf
            simp only [List.filter_append, List.map_append]
            have : (pr.assigned.map (fun rv => (pr.pullRequestID, rv))).filter
                (fun rv => rv.1 == pid) = [] := by
              rw [List.filter_eq_nil_iff]
              intro a ha
              rcases List.mem_map.mp ha with ⟨rv, _, hrv⟩
              subst hrv
              simpa using fun hc => hne (by simp [hc])
            rw [this]
            simp

end StoreLemmas

section EngineStateLemmas

theorem dbCreateTeam_pullRequests (σ : Store) (t : Team) :
    (dbCreateTeam σ t).2.pullRequests = σ.pullRequests := by
  unfold dbCreateTeam
  split
  · rfl
  · split
    · rfl
    · split <;> rfl

theorem dbCreateTeam_prReviewers (σ : Store) (t : Team) :
    (dbCreateTeam σ t).2.prReviewers = σ.prReviewers := by
  unfold dbCreateTeam
  split
  · rfl
  · split
    · rfl
    · split <;> rfl

/-- Lemma: `Service.CreateTeam` writes only `teams` and `users`. -/
theorem createTeam_pullRequests (σ : Store) (t : Team) :
    (Service.CreateTeam dbRepo σ t).2.pullRequests = σ.pullRequests := by
  unfold Service.CreateTeam
  split
  · rfl
  · split
    · rfl
    · split <;> rename_i heq <;>
      · have hs := congrArg (fun x => x.2) heq
        simp only at hs
        rw [← hs]
        exact dbCreateTeam_pullRequests σ t

theorem createTeam_prReviewers (σ : Store) (t : Team) :
    (Service.CreateTeam dbRepo σ t).2.prReviewers = σ.prReviewers := by
  unfold Service.CreateTeam
  split
  · rfl
  · split
    · rfl
    · split <;> rename_i heq <;>
      · have hs := congrArg (fun x => x.2) heq
        simp only at hs
        rw [← hs]
        exact dbCreateTeam_prReviewers σ t

end EngineStateLemmas

theorem dbSetUserIsActive_pullRequests (σ : Store) (uid : String) (b : Bool) :
    (dbSetUserIsActive σ uid b).2.pullRequests = σ.pullRequests := by
  unfold dbSetUserIsActive
  dsimp only
  split <;> rfl

theorem dbSetUserIsActive_prReviewers (σ : Store) (uid : String) (b : Bool) :
    (dbSetUserIsActive σ uid b).2.prReviewers = σ.prReviewers := by
  unfold dbSetUserIsActive
  dsimp only
  split <;> rfl

/-- Lemma: `Service.SetUserIsActive` writes only `users`. -/
theorem setUserIsActive_pullRequests (σ : Store) (uid : String) (b : Bool) :
    (Service.SetUserIsActive dbRepo σ uid b).2.pullRequests = σ.pullRequests := by
  unfold Service.SetUserIsActive
  split <;> rename_i heq <;>
  · have hs := congrArg (fun x => x.2) heq
    simp only at hs
    rw [← hs]
    exact dbSetUserIsActive_pullRequests σ uid b

theorem setUserIsActive_prReviewers (σ : Store) (uid : String) (b : Bool) :
    (Service.SetUserIsActive dbRepo σ uid b).2.prReviewers = σ.prReviewers := by
  unfold Service.SetUserIsActive
  split <;> rename_i heq <;>
  · have hs := congrArg (fun x => x.2) heq
    simp only at hs
    rw [← hs]
    exact dbSetUserIsActive_prReviewers σ uid b

/-- Shape of the state after `Service.MergePR`: either untouched, or a
single `UpdatePR` writing status `MERGED` and `merged_at = now` to a PR
that was found OPEN. -/
theorem mergePR_state (σ : Store) (now : Nat) (prID : String) :
    (Service.MergePR dbRepo σ now prID).2 = σ ∨
    ∃ pr' row₀,
      pr'.pullRequestID = prID ∧
      pr'.status = "MERGED" ∧
      pr'.mergedAt = some now ∧
      findPR σ prID = some row₀ ∧
      row₀.status ≠ "MERGED" ∧
      (Service.MergePR dbRepo σ now prID).2 = (dbUpdatePR σ pr').2 := by
  unfold Service.MergePR
  rcases hf : findPR σ prID with _ | row₀
  · left
    have : dbRepo.getPR σ prID = (default, some .errNotFound) := dbGetPR_of_findPR_none hf
    rw [this]
  · have hget : dbRepo.getPR σ prID =
        (⟨row₀.pullRequestID, row₀.pullRequestName, row₀.authorID, row₀.status,
          sortStrings (reviewersOf σ prID), row₀.createdAt, row₀.mergedAt⟩, none) :=
      dbGetPR_of_findPR_some hf
    rw [hget]
    by_cases hm : row₀.status = "MERGED"
    · left
      simp [hm]
    · right
      have hmb : (row₀.status == "MERGED") = false := by simpa using hm
      simp only [hmb, Bool.false_eq_true, if_false]
      refine ⟨⟨row₀.pullRequestID, row₀.pullRequestName, row₀.authorID, "MERGED",
        sortStrings (reviewersOf σ prID), row₀.createdAt, some now⟩, row₀,
        ?_, rfl, rfl, rfl, hm, ?_⟩
      · simpa using findPR_id hf
      · rfl

/-- Shape of the state after `Service.ReassignReviewer`: either untouched,
or a single `UpdatePR` writing the PR's own name, status and `merged_at`
back to a PR that was found OPEN (only the in-memory `assigned` differs). -/
theorem reassign_state (σ : Store) (k : Nat) (prID oldUserID : String) :
    (Service.ReassignReviewer dbRepo σ k prID oldUserID).2 = σ ∨
    ∃ pr' row₀,
      pr'.pullRequestID = prID ∧
      pr'.status = row₀.status ∧
      pr'.mergedAt = row₀.mergedAt ∧
      findPR σ prID = some row₀ ∧
      row₀.status ≠ "MERGED" ∧
      (Service.ReassignReviewer dbRepo σ k prID oldUserID).2 = (dbUpdatePR σ pr').2 := by
  unfold Service.ReassignReviewer
  rcases hf : findPR σ prID with _ | row₀
  · left
    have : dbRepo.getPR σ prID = (default, some .errNotFound) := dbGetPR_of_findPR_none hf
    rw [this]
  · have hget : dbRepo.getPR σ prID =
        (⟨row₀.pullRequestID, row₀.pullRequestName, row₀.authorID, row₀.status,
          sortStrings (reviewersOf σ prID), row₀.createdAt, row₀.mergedAt⟩, none) :=
      dbGetPR_of_findPR_some hf
    rw [hget]
    by_cases hm : row₀.status = "MERGED"
    · left
      simp [hm]
    · have hmb : (row₀.status == "MERGED") = false := by simpa using hm
      simp only [hmb, Bool.false_eq_true, if_false]
      split
      · left
        rfl
      · split
        · left
          rfl
        · rename_i oldUser hgu
          split
          · left
            rfl
          · rename_i candidates hc
            split
            · left
              rfl
            · right
              refine ⟨⟨row₀.pullRequestID, row₀.pullRequestName, row₀.authorID, row₀.status,
                replaceFirst (sortStrings (reviewersOf σ prID)) oldUserID
                  ((candidates.filter (fun c => c != row₀.authorID &&
                      !(sortStrings (reviewersOf σ prID)).contains c)).getD
                    (k % (candidates.filter (fun c => c != row₀.authorID &&
                      !(sortStrings (reviewersOf σ prID)).contains c)).length) ""),
                row₀.createdAt, row₀.mergedAt⟩, row₀,
                ?_, rfl, rfl, rfl, hm, rfl⟩
              simpa using findPR_id hf

/-- Shape of the state after `Service.CreatePR`: either untouched or the
result of one `CreatePRWithReviewers` transaction. -/
theorem createPR_state (σ : Store) (now : Nat) (shuf : List String → List String)
    (prID prName authorID : String) :
    (Service.CreatePR dbRepo σ now shuf prID prName authorID).2 = σ ∨
    ∃ pr, (Service.CreatePR dbRepo σ now shuf prID prName authorID).2 =
      (dbCreatePRWithReviewers σ now pr).2 := by
  unfold Service.CreatePR
  split
  · left
    rfl
  · split
    · left
      rfl
    · split
      · left
        rfl
      · rename_i candidates hc
        dsimp only
        split <;> rename_i heq <;>
        · right
          refine ⟨⟨prID, prName, authorID, "OPEN", chooseUpToN shuf candidates 2,
            now, none⟩, ?_⟩
          have hs := congrArg (fun x => x.2) heq
          simp only at hs
          rw [← hs]
          rfl
    · left
      rfl

section InvariantLemmas

/-- I7 as a state predicate: every durable PR row is MERGED exactly when
its `merged_at` is set. -/
def prStatusInv (σ : Store) : Prop :=
  ∀ row ∈ σ.pullRequests, (row.status = "MERGED" ↔ row.mergedAt ≠ none)

theorem dbCreatePRWithReviewers_prStatusInv (σ : Store) (dbNow : Nat)
    (pr : PullRequest) (h : prStatusInv σ) :
    prStatusInv (dbCreatePRWithReviewers σ dbNow pr).2 := by
  unfold dbCreatePRWithReviewers
  split
  · exact h
  · split
    · exact h
    · split
      · exact h
      · split
        · exact h
        · intro row hrow
          rcases List.mem_append.mp hrow with h1 | h2
          · exact h row h1
          · have hrw : row = ⟨pr.pullRequestID, pr.pullRequestName, pr.authorID,
                "OPEN", dbNow, none⟩ := by simpa using h2
            subst hrw
            simp

theorem dbUpdatePR_prStatusInv (σ : Store) (pr : PullRequest)
    (hpr : pr.status = "MERGED" ↔ pr.mergedAt ≠ none) (h : prStatusInv σ) :
    prStatusInv (dbUpdatePR σ pr).2 := by
  intro row hrow
  unfold dbUpdatePR at hrow
  simp only at hrow
  rcases List.mem_map.mp hrow with ⟨row₀, hmem, hrw⟩
  by_cases hc : (row₀.pullRequestID == pr.pullRequestID) = true
  · rw [← hrw]
    simp only [hc, if_true]
    exact hpr
  · rw [← hrw]
    simp only [hc, Bool.false_eq_true, if_false]
    exact h row₀ hmem

end InvariantLemmas

section ChooseLemmas

theorem chooseUpToN_length (shuf : List String → List String)
    (hshuf : ∀ l, (shuf l).Perm l) (items : List String) (n : Nat) :
    (chooseUpToN shuf items n).length = min items.length n := by
  unfold chooseUpToN
  split
  · rename_i hle
    rw [(hshuf items).length_eq]
    exact (Nat.min_eq_left hle).symm
  · rename_i hgt
    rw [List.length_take, (hshuf items).length_eq, Nat.min_comm]

theorem chooseUpToN_subset (shuf : List String → List String)
    (hshuf : ∀ l, (shuf l).Perm l) (items : List String) (n : Nat) :
    ∀ x ∈ chooseUpToN shuf items n, x ∈ items := by
  unfold chooseUpToN
  split
  · intro x hx
    exact (hshuf items).mem_iff.mp hx
  · intro x hx
    exact (hshuf items).mem_iff.mp (List.take_subset _ _ hx)

/-- The SQL filter `user_id <> $2` keeps the excluded user out of the
candidate list. -/
theorem not_mem_activeTeammates (σ : Store) (team ex : String) :
    ex ∉ (dbGetActiveTeamMembersExcept σ team ex).1 := by
  unfold dbGetActiveTeamMembersExcept
  intro h
  rcases List.mem_map.mp h with ⟨u, hu, hx⟩
  have hp := List.of_mem_filter hu
  simp only [Bool.and_eq_true, bne_iff_ne, ne_eq] at hp
  exact hp.2 hx

end ChooseLemmas

section InversionLemmas

/-- Inversion of a successful `Service.CreatePR` over the production
repository: the author lookup succeeded, the PR id was free, and the
returned PR is the freshly built OPEN PR whose reviewers were chosen from
the author's active teammates; the new state is the one produced by the
`CreatePRWithReviewers` transaction. -/
theorem createPR_success_inv (σ : Store) (now : Nat)
    (shuf : List String → List String) (prID prName authorID : String)
    (hsucc : (Service.CreatePR dbRepo σ now shuf prID prName authorID).1.2 = none) :
    (dbGetUser σ authorID).2 = none ∧
    findPR σ prID = none ∧
    (Service.CreatePR dbRepo σ now shuf prID prName authorID).1.1 =
      ⟨prID, prName, authorID, "OPEN",
        chooseUpToN shuf
          (dbGetActiveTeamMembersExcept σ ((dbGetUser σ authorID).1.teamName) authorID).1 2,
        now, none⟩ ∧
    (dbCreatePRWithReviewers σ now
      (Service.CreatePR dbRepo σ now shuf prID prName authorID).1.1).1 = none ∧
    (Service.CreatePR dbRepo σ now shuf prID prName authorID).2 =
      (dbCreatePRWithReviewers σ now
        (Service.CreatePR dbRepo σ now shuf prID prName authorID).1.1).2 := by
  unfold Service.CreatePR at hsucc
  split at hsucc
  · exact absurd hsucc (by simp)
  · rename_i author hgu
    split at hsucc
    · exact absurd hsucc (by simp)
    · rename_i hprnf
      split at hsucc
      · exact absurd hsucc (by simp)
      · rename_i candidates hc
        dsimp only at hsucc
        split at hsucc
        · exact absurd hsucc (by simp)
        · rename_i σ' heq
          have hval : Service.CreatePR dbRepo σ now shuf prID prName authorID =
              ((⟨prID, prName, authorID, "OPEN", chooseUpToN shuf candidates 2,
                now, none⟩, none), σ') := by
            unfold Service.CreatePR
            rw [hgu]
            dsimp only
            rw [hprnf]
            dsimp only
            rw [hc]
            dsimp only
            rw [heq]
          have hgu1 : (dbGetUser σ authorID).1 = author := by
            rw [show dbGetUser σ authorID = (author, none) from hgu]
          have hcand : (dbGetActiveTeamMembersExcept σ author.teamName authorID).1
              = candidates := by
            rw [show dbGetActiveTeamMembersExcept σ author.teamName authorID
              = (candidates, none) from hc]
          have hfpr : findPR σ prID = none := by
            rcases hfp : findPR σ prID with _ | row
            · rfl
            · rw [show dbRepo.getPR = dbGetPR from rfl, dbGetPR_of_findPR_some hfp] at hprnf
              simp at hprnf
          have hw1 : (dbCreatePRWithReviewers σ now
              ⟨prID, prName, authorID, "OPEN", chooseUpToN shuf candidates 2,
                now, none⟩).1 = none := congrArg (fun x => x.1) heq
          have hw2 : (dbCreatePRWithReviewers σ now
              ⟨prID, prName, authorID, "OPEN", chooseUpToN shuf candidates 2,
                now, none⟩).2 = σ' := congrArg (fun x => x.2) heq
          refine ⟨by rw [show dbGetUser σ authorID = (author, none) from hgu], hfpr, ?_, ?_, ?_⟩
          · rw [hval, hgu1, hcand]
          · rw [hval]
            dsimp only
            rw [hw1]
          · rw [hval]
            dsimp only
            rw [hw2]
    · exact absurd hsucc (by simp)

end InversionLemmas

section ReviewerLemmas

/-- If every reviewer row references an existing PR (the `pr_reviewers`
foreign key), a PR id with no `pull_requests` row has no reviewer rows. -/
theorem reviewersOf_empty_of_no_row (σ : Store) (pid : String)
    (hfk : ∀ rv ∈ σ.prReviewers,
      σ.pullRequests.any (fun row => row.pullRequestID == rv.1) = true)
    (hnone : findPR σ pid = none) : reviewersOf σ pid = [] := by
  unfold reviewersOf
  have : σ.prReviewers.filter (fun rv => rv.1 == pid) = [] := by
    rw [List.filter_eq_nil_iff]
    intro rv hrv hpid
    have hpe : rv.1 = pid := by simpa using hpid
    rcases List.any_eq_true.mp (hfk rv hrv) with ⟨row, hmem, hrow⟩
    have : findPR σ pid ≠ none := by
      unfold findPR
      intro hcc
      have := List.find?_eq_none.mp hcc row hmem
      rw [hpe] at hrow
      exact this hrow
    exact this hnone
  rw [this]
  rfl

/-- The reviewer rows persisted by a successful `CreatePRWithReviewers`
for a fresh PR id are exactly the assigned reviewers, in order. -/
theorem dbCreatePRWithReviewers_reviewers (σ : Store) (dbNow : Nat)
    (pr : PullRequest)
    (hs : (dbCreatePRWithReviewers σ dbNow pr).1 = none)
    (hemp : reviewersOf σ pr.pullRequestID = []) :
    reviewersOf (dbCreatePRWithReviewers σ dbNow pr).2 pr.pullRequestID = pr.assigned := by
  unfold dbCreatePRWithReviewers at hs ⊢
  split at hs
  · exact absurd hs (by simp)
  · split at hs
    · exact absurd hs (by simp)
    · split at hs
      · exact absurd hs (by simp)
      · split at hs
        · exact absurd hs (by simp)
        · rename_i h1 h2 h3 h4
          unfold reviewersOf at hemp ⊢
          rw [if_neg h1, if_neg h2, if_neg h3, if_neg h4]
          rw [List.filter_append, List.map_append, hemp]
          have : (pr.assigned.map (fun rv => (pr.pullRequestID, rv))).filter
              (fun rv => rv.1 == pr.pullRequestID) =
              pr.assigned.map (fun rv => (pr.pullRequestID, rv)) := by
            rw [List.filter_eq_self]
            intro a ha
            rcases List.mem_map.mp ha with ⟨rv, _, hrv⟩
            subst hrv
            simp
          rw [this, List.nil_append, List.map_map]
          simp

end ReviewerLemmas

section ReachableInv

/-- Every reachable store satisfies I7: `status = MERGED` iff `merged_at`
is set, on every PR row. -/
theorem reachable_prStatusInv (σ : Store) (h : Reachable σ) : prStatusInv σ := by
  induction h with
  | init =>
    intro row hrow
    cases hrow
  | step hR hS ih =>
    rename_i σ₀ σ₁
    cases hS with
    | createTeam t =>
      intro row hrow
      apply ih row
      rwa [createTeam_pullRequests] at hrow
    | setUserIsActive uid b =>
      intro row hrow
      apply ih row
      rwa [setUserIsActive_pullRequests] at hrow
    | createPR now shuf prID prName authorID =>
      rcases createPR_state σ₀ now shuf prID prName authorID with heq | ⟨pr, heq⟩
      · rw [heq]
        exact ih
      · rw [heq]
        exact dbCreatePRWithReviewers_prStatusInv σ₀ now pr ih
    | mergePR now prID =>
      rcases mergePR_state σ₀ now prID with heq | ⟨pr', row₀, hid, hst, hma, hf0, hopen, heq⟩
      · rw [heq]
        exact ih
      · rw [heq]
        apply dbUpdatePR_prStatusInv σ₀ pr' _ ih
        rw [hst, hma]
        simp
    | reassignReviewer k prID oldUID =>
      rcases reassign_state σ₀ k prID oldUID with heq | ⟨pr', row₀, hid, hst, hma, hf0, hopen, heq⟩
      · rw [heq]
        exact ih
      · rw [heq]
        apply dbUpdatePR_prStatusInv σ₀ pr' _ ih
        rw [hst, hma]
        exact ih row₀ (findPR_mem hf0)

end ReachableInv

section MergeLemmas

/-- Value-level characterization of `Service.MergePR` over the production
repository: not-found error, already-merged no-op, or the OPEN→MERGED
write. -/
theorem mergePR_val (σ : Store) (now : Nat) (prID : String) :
    (findPR σ prID = none ∧
      Service.MergePR dbRepo σ now prID =
        ((default, some (.api .notFound "PR not found")), σ)) ∨
    (∃ row, findPR σ prID = some row ∧ row.status = "MERGED" ∧
      Service.MergePR dbRepo σ now prID = (((dbGetPR σ prID).1, none), σ)) ∨
    (∃ row, findPR σ prID = some row ∧ row.status ≠ "MERGED" ∧
      Service.MergePR dbRepo σ now prID =
        ((⟨row.pullRequestID, row.pullRequestName, row.authorID, "MERGED",
            sortStrings (reviewersOf σ prID), row.createdAt, some now⟩, none),
          (dbUpdatePR σ ⟨row.pullRequestID, row.pullRequestName, row.authorID, "MERGED",
            sortStrings (reviewersOf σ prID), row.createdAt, some now⟩).2)) := by
  rcases hf : findPR σ prID with _ | row
  · left
    refine ⟨rfl, ?_⟩
    unfold Service.MergePR
    rw [show dbRepo.getPR σ prID = (default, some .errNotFound) from dbGetPR_of_findPR_none hf]
  · have hget : dbRepo.getPR σ prID =
        (⟨row.pullRequestID, row.pullRequestName, row.authorID, row.status,
          sortStrings (reviewersOf σ prID), row.createdAt, row.mergedAt⟩, none) :=
      dbGetPR_of_findPR_some hf
    by_cases hm : row.status = "MERGED"
    · right
      left
      refine ⟨row, rfl, hm, ?_⟩
      unfold Service.MergePR
      rw [hget]
      dsimp only
      rw [if_pos (by simpa using hm)]
      rw [show dbGetPR σ prID = (⟨row.pullRequestID, row.pullRequestName, row.authorID,
        row.status, sortStrings (reviewersOf σ prID), row.createdAt, row.mergedAt⟩, none)
        from dbGetPR_of_findPR_some hf]
    · right
      right
      refine ⟨row, rfl, hm, ?_⟩
      unfold Service.MergePR
      rw [hget]
      dsimp only
      rw [if_neg (by simpa using hm)]
      rfl

end MergeLemmas

section ReassignLemmas

theorem contains_iff_mem (l : List String) (a : String) : l.contains a = true ↔ a ∈ l := by
  simp

/-- The candidate pool step 5 of §4.2.6 draws from: the displaced
reviewer's active teammates (note: the reviewer's team, not the author's). -/
def reassignCandidates (σ : Store) (oldUID : String) : List String :=
  (dbGetActiveTeamMembersExcept σ ((dbGetUser σ oldUID).1.teamName) oldUID).1

/-- The filtered candidate list of §4.2.6 steps 5–6: active teammates of
the displaced reviewer, minus the author and the current reviewer set. -/
def reassignFiltered (σ : Store) (prID oldUID : String) : List String :=
  (reassignCandidates σ oldUID).filter
    (fun c => c != (dbGetPR σ prID).1.authorID &&
      !(dbGetPR σ prID).1.assigned.contains c)

/-- Value-level characterization of `Service.ReassignReviewer` over the
production repository, on states whose reviewer rows reference existing
users (the `pr_reviewers → users` foreign key). -/
theorem reassign_val (σ : Store) (k : Nat) (prID oldUID : String)
    (hwf : ∀ rv ∈ σ.prReviewers, ∃ u ∈ σ.users, u.userID = rv.2) :
    (findPR σ prID = none ∧
      Service.ReassignReviewer dbRepo σ k prID oldUID =
        (((default, ""), some (.api .notFound "PR not found")), σ)) ∨
    ((∃ row, findPR σ prID = some row ∧ row.status = "MERGED") ∧
      Service.ReassignReviewer dbRepo σ k prID oldUID =
        (((default, ""), some (.api .prAlreadyMerged "cannot reassign on merged PR")), σ)) ∨
    ((∃ row, findPR σ prID = some row ∧ row.status ≠ "MERGED") ∧
      oldUID ∉ (dbGetPR σ prID).1.assigned ∧
      Service.ReassignReviewer dbRepo σ k prID oldUID =
        (((default, ""), some (.api .notAssigned "reviewer is not assigned to this PR")), σ)) ∨
    ((∃ row, findPR σ prID = some row ∧ row.status ≠ "MERGED") ∧
      oldUID ∈ (dbGetPR σ prID).1.assigned ∧
      reassignFiltered σ prID oldUID = [] ∧
      Service.ReassignReviewer dbRepo σ k prID oldUID =
        (((default, ""), some (.api .noCandidate "no active replacement candidate in team")), σ)) ∨
    ((∃ row, findPR σ prID = some row ∧ row.status ≠ "MERGED") ∧
      oldUID ∈ (dbGetPR σ prID).1.assigned ∧
      reassignFiltered σ prID oldUID ≠ [] ∧
      (Service.ReassignReviewer dbRepo σ k prID oldUID).1.2 = none) := by
  rcases hf : findPR σ prID with _ | row
  · left
    refine ⟨rfl, ?_⟩
    unfold Service.ReassignReviewer
    rw [show dbRepo.getPR σ prID = (default, some .errNotFound) from dbGetPR_of_findPR_none hf]
  · have hget : dbGetPR σ prID =
        (⟨row.pullRequestID, row.pullRequestName, row.authorID, row.status,
          sortStrings (reviewersOf σ prID), row.createdAt, row.mergedAt⟩, none) :=
      dbGetPR_of_findPR_some hf
    by_cases hm : row.status = "MERGED"
    · right; left
      refine ⟨⟨row, rfl, hm⟩, ?_⟩
      unfold Service.ReassignReviewer
      rw [show dbRepo.getPR σ prID = _ from hget]
      dsimp only
      rw [if_pos (by simpa using hm)]
    · by_cases hmem : oldUID ∈ sortStrings (reviewersOf σ prID)
      · -- the displaced reviewer is assigned, so the old-user lookup succeeds
        have hex : ∃ u ∈ σ.users, u.userID = oldUID := by
          have h1 : oldUID ∈ reviewersOf σ prID := mem_sortStrings.mp hmem
          unfold reviewersOf at h1
          rcases List.mem_map.mp h1 with ⟨rv, hrv, hrv2⟩
          exact hrv2 ▸ hwf rv (List.mem_of_mem_filter hrv)
        have hfindu : (σ.users.find? (fun u => u.userID == oldUID)).isSome := by
          rcases hex with ⟨u, hu, hid⟩
          exact List.find?_isSome.mpr ⟨u, hu, by simp [hid]⟩
        rcases hfu : σ.users.find? (fun u => u.userID == oldUID) with _ | u'
        · rw [hfu] at hfindu
          simp at hfindu
        · have hgu : dbGetUser σ oldUID = (u', none) := by
            unfold dbGetUser
            rw [hfu]
          have hRF : reassignFiltered σ prID oldUID =
              (dbGetActiveTeamMembersExcept σ u'.teamName oldUID).1.filter
                (fun c => c != row.authorID &&
                  !(sortStrings (reviewersOf σ prID)).contains c) := by
            unfold reassignFiltered reassignCandidates
            rw [hgu, hget]
          have hmemget : oldUID ∈ (dbGetPR σ prID).1.assigned := by
            rw [hget]
            exact hmem
          have hcontains : ((sortStrings (reviewersOf σ prID)).contains oldUID) = true :=
            (contains_iff_mem _ _).mpr hmem
          by_cases hemp : reassignFiltered σ prID oldUID = []
          · right; right; right; left
            refine ⟨⟨row, rfl, hm⟩, hmemget, hemp, ?_⟩
            unfold Service.ReassignReviewer
            rw [show dbRepo.getPR σ prID = _ from hget]
            dsimp only
            rw [if_neg (by simpa using hm)]
            rw [if_neg (by simpa using hmem)]
            rw [show dbRepo.getUser σ oldUID = (u', none) from hgu]
            dsimp only
            rw [show dbRepo.getActiveTeamMembersExcept σ u'.teamName oldUID =
              ((dbGetActiveTeamMembersExcept σ u'.teamName oldUID).1, none) from rfl]
            dsimp only
            rw [hRF] at hemp
            rw [if_pos (List.isEmpty_iff.mpr hemp)]
          · right; right; right; right
            refine ⟨⟨row, rfl, hm⟩, hmemget, hemp, ?_⟩
            unfold Service.ReassignReviewer
            rw [show dbRepo.getPR σ prID = _ from hget]
            dsimp only
            rw [if_neg (by simpa using hm)]
            rw [if_neg (by simpa using hmem)]
            rw [show dbRepo.getUser σ oldUID = (u', none) from hgu]
            dsimp only
            rw [show dbRepo.getActiveTeamMembersExcept σ u'.teamName oldUID =
              ((dbGetActiveTeamMembersExcept σ u'.teamName oldUID).1, none) from rfl]
            dsimp only
            rw [hRF] at hemp
            rw [if_neg (fun hie => hemp (List.isEmpty_iff.mp hie))]
            rfl
      · right; right; left
        refine ⟨⟨row, rfl, hm⟩, by rw [hget]; exact hmem, ?_⟩
        unfold Service.ReassignReviewer
        rw [show dbRepo.getPR σ prID = _ from hget]
        dsimp only
        rw [if_neg (by simpa using hm)]
        rw [if_pos (by simpa using hmem)]

end ReassignLemmas

section GetTeamLemmas

/-- Value-level characterization of `Service.GetTeam` over the production
repository: `NotFound` exactly when no user row carries the team name,
otherwise the team with all its members and their current activity flags. -/
theorem getTeam_val (σ : Store) (name : String) :
    ((σ.users.filter (fun u => u.teamName == name)) = [] ∧
      Service.GetTeam dbRepo σ name =
        (default, some (.api .notFound "team not found"))) ∨
    ((σ.users.filter (fun u => u.teamName == name)) ≠ [] ∧
      Service.GetTeam dbRepo σ name =
        (⟨name, (σ.users.filter (fun u => u.teamName == name)).map
          (fun u => ⟨u.userID, u.username, u.isActive⟩)⟩, none)) := by
  by_cases hfe : (σ.users.filter (fun u => u.teamName == name)) = []
  · left
    refine ⟨hfe, ?_⟩
    have hgt : dbGetTeam σ name = (default, some .errNotFound) := by
      unfold dbGetTeam
      dsimp only
      rw [if_pos (by simp [hfe])]
    unfold Service.GetTeam
    rw [show dbRepo.getTeam σ name = (default, some .errNotFound) from hgt]
  · right
    refine ⟨hfe, ?_⟩
    have hgt : dbGetTeam σ name =
        (⟨name, (σ.users.filter (fun u => u.teamName == name)).map
          (fun u => ⟨u.userID, u.username, u.isActive⟩)⟩, none) := by
      unfold dbGetTeam
      dsimp only
      rw [if_neg ?_]
      intro hie
      rw [List.isEmpty_iff, List.map_eq_nil_iff] at hie
      exact hfe hie
    unfold Service.GetTeam
    rw [show dbRepo.getTeam σ name =
      (⟨name, (σ.users.filter (fun u => u.teamName == name)).map
        (fun u => ⟨u.userID, u.username, u.isActive⟩)⟩, none) from hgt]

end GetTeamLemmas

section ConcreteStores

/-- A four-member single-team store with one OPEN PR authored by `u1`,
reviewed by `u2` and `u3`. -/
def c1Store : Store :=
  { teams := ["t"],
    users := [⟨"u1", "Alice", "t", true⟩, ⟨"u2", "Bob", "t", true⟩,
              ⟨"u3", "Carol", "t", true⟩, ⟨"u4", "Dave", "t", true⟩],
    pullRequests := [⟨"pr1", "x", "u1", "OPEN", 0, none⟩],
    prReviewers := [("pr1", "u2"), ("pr1", "u3")] }

/-- A store in which `u2` reviews two PRs and `pr1` has two reviewers. -/
def c2Store : Store :=
  { teams := ["t"],
    users := [⟨"u1", "Alice", "t", true⟩, ⟨"u2", "Bob", "t", true⟩,
              ⟨"u3", "Carol", "t", true⟩],
    pullRequests := [⟨"pr1", "x", "u1", "OPEN", 0, none⟩,
                     ⟨"pr2", "y", "u1", "OPEN", 1, none⟩],
    prReviewers := [("pr1", "u2"), ("pr1", "u3"), ("pr2", "u2")] }

/-- The store of `c1Store` with `pr1` already MERGED at time 5. -/
def c4Store : Store :=
  { teams := ["t"],
    users := [⟨"u1", "Alice", "t", true⟩, ⟨"u2", "Bob", "t", true⟩,
              ⟨"u3", "Carol", "t", true⟩, ⟨"u4", "Dave", "t", true⟩],
    pullRequests := [⟨"pr1", "x", "u1", "MERGED", 0, some 5⟩],
    prReviewers := [("pr1", "u2"), ("pr1", "u3")] }

/-- A repository whose `GetUser` query fails at the storage layer
(e.g. a dropped connection): the returned error is not `model.ErrNotFound`. -/
def faultyUserRepo : Repository :=
  { dbRepo with getUser := fun _ _ => (default, some (.other "connection reset")) }

/-- A repository whose `GetTeam` query fails at the storage layer. -/
def faultyTeamRepo : Repository :=
  { dbRepo with getTeam := fun _ _ => (default, some (.other "connection reset")) }

end ConcreteStores

/-- Claim C1 (code bug evidence): a successful `ReassignReviewer` on
`c1Store` (replacing `u2`, picking `u4`) returns the swapped in-memory
reviewer list, yet the durable reviewer set read back by `GetPR` still
lists `u2` and not `u4` — `UpdatePR` never writes `pr_reviewers`, so the
durable set is NOT the prior set with `u2` removed and `u4` inserted. -/
theorem c1_reassign_not_durable :
    (Service.ReassignReviewer dbRepo c1Store 0 "pr1" "u2").1.2 = none ∧
    (Service.ReassignReviewer dbRepo c1Store 0 "pr1" "u2").1.1.2 = "u4" ∧
    (Service.ReassignReviewer dbRepo c1Store 0 "pr1" "u2").1.1.1.assigned = ["u4", "u3"] ∧
    (dbGetPR (Service.ReassignReviewer dbRepo c1Store 0 "pr1" "u2").2 "pr1").1.assigned
      = ["u2", "u3"] ∧
    (Service.ReassignReviewer dbRepo c1Store 0 "pr1" "u2").2.prReviewers
      = [("pr1", "u2"), ("pr1", "u3")] := by
  decide

/-- Claim C2 (code bug evidence): in `c2Store`, `u2` reviews two PRs and
`pr1` has two reviewers, yet both stats maps report 1 for every key —
`queryCountMap` discards the scanned `COUNT(*)` and counts grouped rows
instead. -/
theorem c2_stats_values_are_ones :
    (dbGetReviewStats c2Store).1 = [("u3", 1), ("u2", 1)] ∧
    (c2Store.prReviewers.filter (fun rv => rv.2 == "u2")).length = 2 ∧
    (dbGetPRReviewStats c2Store).1 = [("pr1", 1), ("pr2", 1)] ∧
    (c2Store.prReviewers.filter (fun rv => rv.1 == "pr1")).length = 2 := by
  decide

/-- Claim C7 (code bug evidence): a storage-layer failure of the author
lookup is reported by `CreatePR` as the domain kind `NotFound` even though
the author exists, and a storage-layer failure of the team-existence
lookup is silently treated by `CreateTeam` as "team does not exist" — the
creation proceeds and succeeds instead of surfacing the failure. -/
theorem c7_storage_error_mistranslated :
    ((Service.CreatePR faultyUserRepo c1Store 5 (fun l => l) "prX" "x" "u1").1.2
        = some (.api .notFound "author not found") ∧
      (dbGetUser c1Store "u1").2 = none) ∧
    ((Service.CreateTeam faultyTeamRepo c1Store ⟨"t2", [⟨"u9", "Nina", true⟩]⟩).1.2 = none ∧
      (Service.CreateTeam faultyTeamRepo c1Store ⟨"t2", [⟨"u9", "Nina", true⟩]⟩).2.teams
        = ["t", "t2"]) := by
  decide

/-- Claim C10: `GetPRsForReviewer` never fails — its error component is
always `none`, for unknown user ids included — and a user id with no
reviewer assignment rows yields the empty list. -/
theorem c10_getPRsForReviewer_total (σ : Store) (userID : String) :
    (Service.GetPRsForReviewer dbRepo σ userID).2 = none ∧
    ((∀ rv ∈ σ.prReviewers, rv.2 ≠ userID) →
      (Service.GetPRsForReviewer dbRepo σ userID).1 = []) := by
  constructor
  · rfl
  · intro h
    show (dbGetAssignedPRsForUser σ userID).1 = []
    unfold dbGetAssignedPRsForUser
    dsimp only
    have hfil : σ.pullRequests.filter (fun row =>
        σ.prReviewers.any (fun rv => rv.1 == row.pullRequestID && rv.2 == userID)) = [] := by
      rw [List.filter_eq_nil_iff]
      intro row hrow hany
      rcases List.any_eq_true.mp hany with ⟨rv, hrv, hb⟩
      simp only [Bool.and_eq_true, beq_iff_eq] at hb
      exact h rv hrv hb.2
    rw [hfil]
    rfl

theorem c10_getPRsForReviewer_total_witness :
    (Service.GetPRsForReviewer dbRepo c1Store "ghost").2 = none ∧
    (Service.GetPRsForReviewer dbRepo c1Store "ghost").1 = [] :=
  ⟨(c10_getPRsForReviewer_total c1Store "ghost").1,
    (c10_getPRsForReviewer_total c1Store "ghost").2 (by decide)⟩

/-- Claim C5: once a PR row is MERGED, no engine operation changes the row
(its status and `merged_at` included) or its durable reviewer set: every
`Step` of the engine preserves both. -/
theorem c5_merged_pr_immutable (σ σ' : Store) (h : Step σ σ') (prID : String)
    (row : PRRow) (hfind : findPR σ prID = some row)
    (hm : row.status = "MERGED") :
    findPR σ' prID = some row ∧ reviewersOf σ' prID = reviewersOf σ prID := by
  cases h with
  | createTeam t =>
    constructor
    · unfold findPR
      rw [createTeam_pullRequests σ t]
      exact hfind
    · unfold reviewersOf
      rw [createTeam_prReviewers σ t]
  | setUserIsActive uid b =>
    constructor
    · unfold findPR
      rw [setUserIsActive_pullRequests σ uid b]
      exact hfind
    · unfold reviewersOf
      rw [setUserIsActive_prReviewers σ uid b]
  | createPR now shuf prID2 prName authorID =>
    rcases createPR_state σ now shuf prID2 prName authorID with heq | ⟨pr, heq⟩
    · rw [heq]
      exact ⟨hfind, rfl⟩
    · rw [heq]
      exact dbCreatePRWithReviewers_pres σ now pr prID row hfind
  | mergePR now prID2 =>
    rcases mergePR_state σ now prID2 with heq | ⟨pr', row₀, hid, hst, hma, hf0, hopen, heq⟩
    · rw [heq]
      exact ⟨hfind, rfl⟩
    · rw [heq]
      have hne : pr'.pullRequestID ≠ prID := by
        rw [hid]
        intro hceq
        subst hceq
        rw [hfind] at hf0
        injection hf0 with h12
        rw [← h12] at hopen
        exact hopen hm
      exact ⟨by rw [findPR_dbUpdatePR_ne σ pr' prID hne]; exact hfind,
        reviewersOf_dbUpdatePR σ pr' prID⟩
  | reassignReviewer k prID2 oldUID =>
    rcases reassign_state σ k prID2 oldUID with heq | ⟨pr', row₀, hid, hst, hma, hf0, hopen, heq⟩
    · rw [heq]
      exact ⟨hfind, rfl⟩
    · rw [heq]
      have hne : pr'.pullRequestID ≠ prID := by
        rw [hid]
        intro hceq
        subst hceq
        rw [hfind] at hf0
        injection hf0 with h12
        rw [← h12] at hopen
        exact hopen hm
      exact ⟨by rw [findPR_dbUpdatePR_ne σ pr' prID hne]; exact hfind,
        reviewersOf_dbUpdatePR σ pr' prID⟩

theorem c5_merged_pr_immutable_witness :
    Step c4Store (Service.MergePR dbRepo c4Store 7 "pr1").2 ∧
    findPR (Service.MergePR dbRepo c4Store 7 "pr1").2 "pr1" =
      some ⟨"pr1", "x", "u1", "MERGED", 0, some 5⟩ ∧
    reviewersOf (Service.MergePR dbRepo c4Store 7 "pr1").2 "pr1" =
      reviewersOf c4Store "pr1" := by
  refine ⟨Step.mergePR c4Store 7 "pr1", ?_, ?_⟩
  · exact (c5_merged_pr_immutable c4Store (Service.MergePR dbRepo c4Store 7 "pr1").2
      (Step.mergePR c4Store 7 "pr1") "pr1" ⟨"pr1", "x", "u1", "MERGED", 0, some 5⟩
      (by decide) (by decide)).1
  · exact (c5_merged_pr_immutable c4Store (Service.MergePR dbRepo c4Store 7 "pr1").2
      (Step.mergePR c4Store 7 "pr1") "pr1" ⟨"pr1", "x", "u1", "MERGED", 0, some 5⟩
      (by decide) (by decide)).2

/-- Claim C8: in every store reachable by engine operations, a PR row has
status MERGED exactly when its `merged_at` is set (I7/P3). -/
theorem c8_status_iff_merged_at (σ : Store) (h : Reachable σ) (row : PRRow)
    (hrow : row ∈ σ.pullRequests) :
    row.status = "MERGED" ↔ row.mergedAt ≠ none :=
  reachable_prStatusInv σ h row hrow

/-- A two-member team used to build a concrete reachable state. -/
def team0 : Team := ⟨"t", [⟨"u1", "Alice", true⟩, ⟨"u2", "Bob", true⟩]⟩

def reachStore1 : Store := (Service.CreateTeam dbRepo emptyStore team0).2

def reachStore2 : Store :=
  (Service.CreatePR dbRepo reachStore1 3 (fun l => l) "pr1" "n" "u1").2

def reachStore3 : Store := (Service.MergePR dbRepo reachStore2 5 "pr1").2

theorem c8_status_iff_merged_at_witness :
    Reachable reachStore3 ∧
    (⟨"pr1", "n", "u1", "MERGED", 3, some 5⟩ : PRRow) ∈ reachStore3.pullRequests ∧
    ((⟨"pr1", "n", "u1", "MERGED", 3, some 5⟩ : PRRow).status = "MERGED" ↔
      (⟨"pr1", "n", "u1", "MERGED", 3, some 5⟩ : PRRow).mergedAt ≠ none) := by
  have hreach : Reachable reachStore3 :=
    Reachable.step
      (Reachable.step
        (Reachable.step Reachable.init (Step.createTeam emptyStore team0))
        (Step.createPR reachStore1 3 (fun l => l) "pr1" "n" "u1"))
      (Step.mergePR reachStore2 5 "pr1")
  have hmem : (⟨"pr1", "n", "u1", "MERGED", 3, some 5⟩ : PRRow) ∈
      reachStore3.pullRequests := by decide
  exact ⟨hreach, hmem,
    c8_status_iff_merged_at reachStore3 hreach ⟨"pr1", "n", "u1", "MERGED", 3, some 5⟩ hmem⟩

/-- Claim C9: on stores satisfying I1 (every user's team name references an
existing team row), `GetTeam` fails with `NotFound` exactly when the team
row is absent or the team has zero member users; on success it returns the
team with all members, each carrying its current `is_active` flag. -/
theorem c9_getTeam_notfound_iff (σ : Store) (name : String)
    (hwf : ∀ u ∈ σ.users, u.teamName ∈ σ.teams) :
    ((Service.GetTeam dbRepo σ name).2 = some (.api .notFound "team not found") ↔
      (name ∉ σ.teams ∨ σ.users.filter (fun u => u.teamName == name) = [])) ∧
    ((Service.GetTeam dbRepo σ name).2 = none →
      (Service.GetTeam dbRepo σ name).1 =
        ⟨name, (σ.users.filter (fun u => u.teamName == name)).map
          (fun u => ⟨u.userID, u.username, u.isActive⟩)⟩) := by
  rcases getTeam_val σ name with ⟨hfe, hval⟩ | ⟨hfe, hval⟩
  · constructor
    · rw [hval]
      constructor
      · intro _
        exact Or.inr hfe
      · intro _
        rfl
    · rw [hval]
      intro hcc
      exact absurd hcc (by simp)
  · constructor
    · rw [hval]
      constructor
      · intro hcc
        exact absurd hcc (by simp)
      · intro hor
        rcases hor with hnt | hfil
        · exfalso
          rcases List.exists_mem_of_ne_nil _ hfe with ⟨u, hu⟩
          have hteam : u.teamName = name := by simpa using List.of_mem_filter hu
          have hmem := hwf u (List.mem_of_mem_filter hu)
          rw [hteam] at hmem
          exact hnt hmem
        · exact absurd hfil hfe
    · rw [hval]
      intro _
      rfl

theorem c9_getTeam_notfound_iff_witness :
    ((Service.GetTeam dbRepo c1Store "t").2 = some (.api .notFound "team not found") ↔
      ("t" ∉ c1Store.teams ∨ c1Store.users.filter (fun u => u.teamName == "t") = [])) ∧
    ((Service.GetTeam dbRepo c1Store "t").2 = none →
      (Service.GetTeam dbRepo c1Store "t").1 =
        ⟨"t", (c1Store.users.filter (fun u => u.teamName == "t")).map
          (fun u => ⟨u.userID, u.username, u.isActive⟩)⟩) :=
  c9_getTeam_notfound_iff c1Store "t" (by decide)

/-- Claim C6: the error taxonomy of `ReassignReviewer` on stores whose
reviewer rows reference existing users (I3): `NotFound` iff the PR row is
absent; otherwise `PRAlreadyMerged` iff the PR is merged; otherwise
`NotAssigned` iff the displaced user is not a current reviewer; otherwise
`NoCandidate` iff the displaced reviewer's active teammates minus the
author and the current reviewers is empty; and every error leaves the
store untouched. -/
theorem c6_reassign_error_taxonomy (σ : Store) (k : Nat) (prID oldUID : String)
    (hwf : ∀ rv ∈ σ.prReviewers, ∃ u ∈ σ.users, u.userID = rv.2) :
    ((Service.ReassignReviewer dbRepo σ k prID oldUID).1.2 =
        some (.api .notFound "PR not found") ↔ findPR σ prID = none) ∧
    (findPR σ prID ≠ none →
      ((Service.ReassignReviewer dbRepo σ k prID oldUID).1.2 =
          some (.api .prAlreadyMerged "cannot reassign on merged PR") ↔
        (dbGetPR σ prID).1.status = "MERGED")) ∧
    (findPR σ prID ≠ none → (dbGetPR σ prID).1.status ≠ "MERGED" →
      ((Service.ReassignReviewer dbRepo σ k prID oldUID).1.2 =
          some (.api .notAssigned "reviewer is not assigned to this PR") ↔
        oldUID ∉ (dbGetPR σ prID).1.assigned)) ∧
    (findPR σ prID ≠ none → (dbGetPR σ prID).1.status ≠ "MERGED" →
      oldUID ∈ (dbGetPR σ prID).1.assigned →
      ((Service.ReassignReviewer dbRepo σ k prID oldUID).1.2 =
          some (.api .noCandidate "no active replacement candidate in team") ↔
        reassignFiltered σ prID oldUID = [])) ∧
    ((Service.ReassignReviewer dbRepo σ k prID oldUID).1.2 ≠ none →
      (Service.ReassignReviewer dbRepo σ k prID oldUID).2 = σ) := by
  have hstatus : ∀ row : PRRow, findPR σ prID = some row →
      (dbGetPR σ prID).1.status = row.status := by
    intro row hfr
    rw [dbGetPR_of_findPR_some hfr]
  rcases reassign_val σ k prID oldUID hwf with
    ⟨hf, hval⟩ | ⟨⟨row, hfr, hms⟩, hval⟩ | ⟨⟨row, hfr, hms⟩, hnm, hval⟩ |
    ⟨⟨row, hfr, hms⟩, hmem, hfil, hval⟩ | ⟨⟨row, hfr, hms⟩, hmem, hfil, herr⟩
  · refine ⟨?_, ?_, ?_, ?_, ?_⟩
    · rw [hval]
      exact ⟨fun _ => hf, fun _ => rfl⟩
    · intro hne
      exact absurd hf hne
    · intro hne _
      exact absurd hf hne
    · intro hne _ _
      exact absurd hf hne
    · intro _
      rw [hval]
  · refine ⟨?_, ?_, ?_, ?_, ?_⟩
    · rw [hval]
      constructor
      · intro hcc
        exact absurd hcc (by simp)
      · intro hnone
        rw [hfr] at hnone
        exact Option.noConfusion hnone
    · intro _
      rw [hval]
      constructor
      · intro _
        rw [hstatus row hfr]
        exact hms
      · intro _
        rfl
    · intro _ hnm
      exact absurd (by rw [hstatus row hfr]; exact hms) hnm
    · intro _ hnm _
      exact absurd (by rw [hstatus row hfr]; exact hms) hnm
    · intro _
      rw [hval]
  · refine ⟨?_, ?_, ?_, ?_, ?_⟩
    · rw [hval]
      constructor
      · intro hcc
        exact absurd hcc (by simp)
      · intro hnone
        rw [hfr] at hnone
        exact Option.noConfusion hnone
    · intro _
      rw [hval]
      constructor
      · intro hcc
        exact absurd hcc (by simp)
      · intro hst
        exfalso
        apply hms
        rw [hstatus row hfr] at hst
        exact hst
    · intro _ _
      rw [hval]
      exact ⟨fun _ => hnm, fun _ => rfl⟩
    · intro _ _ hmem
      exact absurd hmem hnm
    · intro _
      rw [hval]
  · refine ⟨?_, ?_, ?_, ?_, ?_⟩
    · rw [hval]
      constructor
      · intro hcc
        exact absurd hcc (by simp)
      · intro hnone
        rw [hfr] at hnone
        exact Option.noConfusion hnone
    · intro _
      rw [hval]
      constructor
      · intro hcc
        exact absurd hcc (by simp)
      · intro hst
        exfalso
        apply hms
        rw [hstatus row hfr] at hst
        exact hst
    · intro _ _
      rw [hval]
      constructor
      · intro hcc
        exact absurd hcc (by simp)
      · intro hnm
        exact absurd hmem hnm
    · intro _ _ _
      rw [hval]
      exact ⟨fun _ => hfil, fun _ => rfl⟩
    · intro _
      rw [hval]
  · refine ⟨?_, ?_, ?_, ?_, ?_⟩
    · constructor
      · intro hcc
        rw [herr] at hcc
        exact Option.noConfusion hcc
      · intro hnone
        rw [hfr] at hnone
        exact Option.noConfusion hnone
    · intro _
      constructor
      · intro hcc
        rw [herr] at hcc
        exact Option.noConfusion hcc
      · intro hst
        exfalso
        apply hms
        rw [hstatus row hfr] at hst
        exact hst
    · intro _ _
      constructor
      · intro hcc
        rw [herr] at hcc
        exact Option.noConfusion hcc
      · intro hnm
        exact absurd hmem hnm
    · intro _ _ _
      constructor
      · intro hcc
        rw [herr] at hcc
        exact Option.noConfusion hcc
      · intro hfe
        exact absurd hfe hfil
    · intro hne
      exact absurd herr hne

theorem c6_reassign_error_taxonomy_witness :
    (Service.ReassignReviewer dbRepo c1Store 0 "pr1" "u9").1.2 =
      some (.api .notAssigned "reviewer is not assigned to this PR") ∧
    (Service.ReassignReviewer dbRepo c1Store 0 "pr1" "u9").2 = c1Store := by
  have h := c6_reassign_error_taxonomy c1Store 0 "pr1" "u9" (by decide)
  exact ⟨(h.2.2.1 (by decide) (by decide)).mpr (by decide),
    h.2.2.2.2 (by decide)⟩

/-- Claim C4: `MergePR` is idempotent. A PR already MERGED is returned
exactly as stored with no state change, and after any successful
`MergePR`, a subsequent `MergePR` on the same id succeeds, returns the
same `merged_at`, and leaves the state unchanged. -/
theorem c4_mergePR_idempotent (σ : Store) (prID : String) (now now2 : Nat) :
    ((dbGetPR σ prID).2 = none → (dbGetPR σ prID).1.status = "MERGED" →
      Service.MergePR dbRepo σ now prID = (((dbGetPR σ prID).1, none), σ)) ∧
    ((Service.MergePR dbRepo σ now prID).1.2 = none →
      (Service.MergePR dbRepo (Service.MergePR dbRepo σ now prID).2 now2 prID).1.2 = none ∧
      (Service.MergePR dbRepo (Service.MergePR dbRepo σ now prID).2 now2 prID).1.1.mergedAt =
        (Service.MergePR dbRepo σ now prID).1.1.mergedAt ∧
      (Service.MergePR dbRepo (Service.MergePR dbRepo σ now prID).2 now2 prID).2 =
        (Service.MergePR dbRepo σ now prID).2) := by
  constructor
  · intro h2 hst
    rcases mergePR_val σ now prID with ⟨hf, hval⟩ | ⟨row, hf, hm, hval⟩ | ⟨row, hf, hm, hval⟩
    · rw [dbGetPR_of_findPR_none hf] at h2
      exact absurd h2 (by simp)
    · exact hval
    · exfalso
      apply hm
      rw [dbGetPR_of_findPR_some hf] at hst
      exact hst
  · intro hsucc
    rcases mergePR_val σ now prID with ⟨hf, hval⟩ | ⟨row, hf, hm, hval⟩ | ⟨row, hf, hm, hval⟩
    · rw [hval] at hsucc
      exact absurd hsucc (by simp)
    · rw [hval]
      dsimp only
      rcases mergePR_val σ now2 prID with ⟨hf2, hval2⟩ | ⟨row2, hf2, hm2, hval2⟩ |
        ⟨row2, hf2, hm2, hval2⟩
      · rw [hf] at hf2
        exact Option.noConfusion hf2
      · rw [hval2]
        exact ⟨rfl, rfl, rfl⟩
      · rw [hf] at hf2
        injection hf2 with h12
        rw [← h12] at hm2
        exact absurd hm hm2
    · have hid : row.pullRequestID = prID := findPR_id hf
      rw [hid] at hval
      rw [hval]
      dsimp only
      have hf' : findPR (dbUpdatePR σ
          ⟨prID, row.pullRequestName, row.authorID, "MERGED",
            sortStrings (reviewersOf σ prID), row.createdAt, some now⟩).2 prID =
          some ⟨prID, row.pullRequestName, row.authorID, "MERGED",
            row.createdAt, some now⟩ := by
        have hup := findPR_dbUpdatePR_eq σ
          ⟨prID, row.pullRequestName, row.authorID, "MERGED",
            sortStrings (reviewersOf σ prID), row.createdAt, some now⟩
        dsimp only at hup
        rw [hup, hf]
        dsimp only [Option.map]
        rw [show row = ⟨prID, row.pullRequestName, row.authorID, row.status,
          row.createdAt, row.mergedAt⟩ from by rw [← hid]]
      rcases mergePR_val (dbUpdatePR σ
          ⟨prID, row.pullRequestName, row.authorID, "MERGED",
            sortStrings (reviewersOf σ prID), row.createdAt, some now⟩).2 now2 prID with
        ⟨hf2, hval2⟩ | ⟨row2, hf2, hm2, hval2⟩ | ⟨row2, hf2, hm2, hval2⟩
      · rw [hf'] at hf2
        exact Option.noConfusion hf2
      · rw [hval2]
        refine ⟨rfl, ?_, rfl⟩
        rw [dbGetPR_of_findPR_some hf']
      · rw [hf'] at hf2
        injection hf2 with h12
        exfalso
        apply hm2
        rw [← h12]

theorem c4_mergePR_idempotent_witness :
    Service.MergePR dbRepo c4Store 9 "pr1" = (((dbGetPR c4Store "pr1").1, none), c4Store) ∧
    ((Service.MergePR dbRepo (Service.MergePR dbRepo c4Store 9 "pr1").2 11 "pr1").1.2 = none ∧
      (Service.MergePR dbRepo (Service.MergePR dbRepo c4Store 9 "pr1").2 11 "pr1").1.1.mergedAt =
        (Service.MergePR dbRepo c4Store 9 "pr1").1.1.mergedAt ∧
      (Service.MergePR dbRepo (Service.MergePR dbRepo c4Store 9 "pr1").2 11 "pr1").2 =
        (Service.MergePR dbRepo c4Store 9 "pr1").2) :=
  ⟨(c4_mergePR_idempotent c4Store "pr1" 9 11).1 (by decide) (by decide),
    (c4_mergePR_idempotent c4Store "pr1" 9 11).2 (by decide)⟩

/-- Claim C3: for every successful `CreatePR`, the created PR is OPEN, its
reviewer list has length `min k 2` where `k` counts the author's active
non-author teammates, every chosen reviewer is such a teammate, the author
is never chosen, and the durable reviewer rows equal the chosen list; and
when the team has no other active member (`k = 0`) creation still succeeds
with an empty reviewer set. `shuf` ranges over the permutations the
engine's random shuffle can produce; `hfk` is the `pr_reviewers`
foreign-key invariant. -/
theorem c3_createPR_reviewer_selection (σ : Store) (now : Nat)
    (shuf : List String → List String) (prID prName authorID : String)
    (hshuf : ∀ l, (shuf l).Perm l)
    (hfk : ∀ rv ∈ σ.prReviewers,
      σ.pullRequests.any (fun row => row.pullRequestID == rv.1) = true) :
    ((Service.CreatePR dbRepo σ now shuf prID prName authorID).1.2 = none →
      (Service.CreatePR dbRepo σ now shuf prID prName authorID).1.1.status = "OPEN" ∧
      (Service.CreatePR dbRepo σ now shuf prID prName authorID).1.1.assigned.length =
        min (dbGetActiveTeamMembersExcept σ
          ((dbGetUser σ authorID).1.teamName) authorID).1.length 2 ∧
      (∀ u ∈ (Service.CreatePR dbRepo σ now shuf prID prName authorID).1.1.assigned,
        u ∈ (dbGetActiveTeamMembersExcept σ
          ((dbGetUser σ authorID).1.teamName) authorID).1) ∧
      authorID ∉ (Service.CreatePR dbRepo σ now shuf prID prName authorID).1.1.assigned ∧
      reviewersOf (Service.CreatePR dbRepo σ now shuf prID prName authorID).2 prID =
        (Service.CreatePR dbRepo σ now shuf prID prName authorID).1.1.assigned) ∧
    ((dbGetUser σ authorID).2 = none → findPR σ prID = none →
      (dbGetActiveTeamMembersExcept σ ((dbGetUser σ authorID).1.teamName) authorID).1 = [] →
      (Service.CreatePR dbRepo σ now shuf prID prName authorID).1.2 = none ∧
      (Service.CreatePR dbRepo σ now shuf prID prName authorID).1.1.assigned = []) := by
  constructor
  · intro hsucc
    obtain ⟨hgu, hfpr, hret, hcsucc, hcstate⟩ :=
      createPR_success_inv σ now shuf prID prName authorID hsucc
    refine ⟨by rw [hret], ?_, ?_, ?_, ?_⟩
    · rw [hret]
      exact chooseUpToN_length shuf hshuf _ 2
    · rw [hret]
      exact chooseUpToN_subset shuf hshuf _ 2
    · rw [hret]
      intro hmem
      exact not_mem_activeTeammates σ _ authorID
        (chooseUpToN_subset shuf hshuf _ 2 _ hmem)
    · rw [hcstate]
      rw [hret] at hcsucc ⊢
      have hemp : reviewersOf σ prID = [] := reviewersOf_empty_of_no_row σ prID hfk hfpr
      exact dbCreatePRWithReviewers_reviewers σ now _ hcsucc hemp
  · intro hgu hfpr hcand
    rcases hfu : σ.users.find? (fun u => u.userID == authorID) with _ | u
    · exfalso
      unfold dbGetUser at hgu
      rw [hfu] at hgu
      exact Option.noConfusion hgu
    · have hgud : dbGetUser σ authorID = (u, none) := by
        unfold dbGetUser
        rw [hfu]
      have hteam : (dbGetUser σ authorID).1.teamName = u.teamName := by rw [hgud]
      rw [hteam] at hcand
      have hsel : chooseUpToN shuf
          (dbGetActiveTeamMembersExcept σ u.teamName authorID).1 2 = [] := by
        rw [hcand]
        unfold chooseUpToN
        rw [if_pos (by simp)]
        exact (hshuf []).eq_nil
      have hpu : (u.userID == authorID) = true := by
        have := List.find?_some hfu
        simpa using this
      have hany : σ.users.any (fun u2 => u2.userID == authorID) = true :=
        List.any_eq_true.mpr ⟨u, List.mem_of_find?_eq_some hfu, hpu⟩
      have hnopr : ¬ (σ.pullRequests.any
          (fun row => row.pullRequestID == prID) = true) := by
        intro hc
        rcases List.any_eq_true.mp hc with ⟨r, hr, hpr⟩
        exact (List.find?_eq_none.mp hfpr r hr) hpr
      have hval : Service.CreatePR dbRepo σ now shuf prID prName authorID =
          ((⟨prID, prName, authorID, "OPEN", [], now, none⟩, none),
            (dbCreatePRWithReviewers σ now
              ⟨prID, prName, authorID, "OPEN", [], now, none⟩).2) := by
        unfold Service.CreatePR
        rw [show dbRepo.getUser σ authorID = (u, none) from hgud]
        dsimp only
        rw [show (dbRepo.getPR σ prID).2 = some GoErr.errNotFound from by
          rw [show dbRepo.getPR σ prID = (default, some .errNotFound) from
            dbGetPR_of_findPR_none hfpr]]
        dsimp only
        rw [show dbRepo.getActiveTeamMembersExcept σ u.teamName authorID =
          ((dbGetActiveTeamMembersExcept σ u.teamName authorID).1, none) from rfl]
        dsimp only
        rw [hsel]
        have hw1 : (dbCreatePRWithReviewers σ now
            ⟨prID, prName, authorID, "OPEN", [], now, none⟩).1 = none := by
          unfold dbCreatePRWithReviewers
          rw [if_neg hnopr, if_neg (by simp [hany]), if_neg (by simp), if_neg (by simp)]
        rw [show dbRepo.createPRWithReviewers σ now
            ⟨prID, prName, authorID, "OPEN", [], now, none⟩ =
          ((dbCreatePRWithReviewers σ now
              ⟨prID, prName, authorID, "OPEN", [], now, none⟩).1,
            (dbCreatePRWithReviewers σ now
              ⟨prID, prName, authorID, "OPEN", [], now, none⟩).2) from rfl]
        rw [hw1]
      rw [hval]
      exact ⟨rfl, rfl⟩

theorem c3_createPR_reviewer_selection_witness :
    ((Service.CreatePR dbRepo c1Store 7 (fun l => l) "pr2" "n" "u2").1.2 = none →
      (Service.CreatePR dbRepo c1Store 7 (fun l => l) "pr2" "n" "u2").1.1.status = "OPEN" ∧
      (Service.CreatePR dbRepo c1Store 7 (fun l => l) "pr2" "n" "u2").1.1.assigned.length =
        min (dbGetActiveTeamMembersExcept c1Store
          ((dbGetUser c1Store "u2").1.teamName) "u2").1.length 2 ∧
      (∀ u ∈ (Service.CreatePR dbRepo c1Store 7 (fun l => l) "pr2" "n" "u2").1.1.assigned,
        u ∈ (dbGetActiveTeamMembersExcept c1Store
          ((dbGetUser c1Store "u2").1.teamName) "u2").1) ∧
      "u2" ∉ (Service.CreatePR dbRepo c1Store 7 (fun l => l) "pr2" "n" "u2").1.1.assigned ∧
      reviewersOf (Service.CreatePR dbRepo c1Store 7 (fun l => l) "pr2" "n" "u2").2 "pr2" =
        (Service.CreatePR dbRepo c1Store 7 (fun l => l) "pr2" "n" "u2").1.1.assigned) ∧
    (Service.CreatePR dbRepo c1Store 7 (fun l => l) "pr2" "n" "u2").1.2 = none :=
  ⟨(c3_createPR_reviewer_selection c1Store 7 (fun l => l) "pr2" "n" "u2"
      (fun l => List.Perm.refl l) (by decide)).1,
    by decide⟩
